import Mathlib

/-!
Verification of the SponCom sponsor-crediting core.

This file is a shallow embedding of the repository's core algorithm, translated
from `src/sponcom/models.py`, `src/sponcom/database.py` and `src/sponcom/cli.py`.

Modelling decisions, each noted again at the definition it concerns:

* The sqlite database is a `Store`: three lists of rows, one per table
  (`sponsor`, `gratitude`, `precommit`), in insertion order.
* `uuid4()` is modelled as a fresh-id supply: a `DB` bundles the store with a
  `nextId` counter, and each generated identifier is the counter's value.
  Freshness of uuid4 values (no collision with any stored id) is the intended
  behaviour being modelled; theorems that rely on it carry the corresponding
  `< nextId` hypotheses on the stored ids.
* `ORDER BY random()` in the `draw` query is modelled by an oracle list `perm`
  supplied to the function; theorems constrain it to be a permutation of the
  rows the query's WHERE clause selects (`qualifying`).
* sqlite `LIMIT {limit}` with a negative bound imposes no limit; `draw`
  reproduces that.
* Python `float` timestamps from `time()` are never computed with, only stored,
  so they are modelled as opaque `Int` values passed in by the caller.
-/

/-- A row of the `sponsor` table (`models.py` `Sponsor`, minus the `storage`
connection handle). -/
structure Sponsor where
  id : Nat
  name : String
  level : Int
  current : Int
deriving DecidableEq

/-- A row of the `gratitude` table (`models.py` `Gratitude`). -/
structure Gratitude where
  id : Nat
  sponsor_id : Nat
  timestamp : Int
  description : String
deriving DecidableEq

/-- A row of the `precommit` table (`models.py` `CommitRecord`): the commit
attachment for one gratitude event. -/
structure CommitRecord where
  gratitudeID : Nat
  commitMessage : String
  workingDirectory : String
  preMessagePath : String
  commitSource : Option String
  commitObject : Option String
  parentCommit : String
deriving DecidableEq

/-- The three tables of the sqlite store, rows in insertion order. -/
structure Store where
  sponsors : List Sponsor
  gratitudes : List Gratitude
  commits : List CommitRecord
deriving DecidableEq

/-- Store plus the fresh-id supply modelling `uuid4()`. -/
structure DB where
  store : Store
  nextId : Nat
deriving DecidableEq

/-- Model of `SponsorStorage.saveSponsor` (`database.py`): INSERT with
`ON CONFLICT(sponsor.id) DO UPDATE SET (name, level, current)` - an upsert
keyed by `id`. -/
def saveSponsor (st : Store) (i : Nat) (nm : String) (lv cur : Int) : Store :=
  if ∃ r ∈ st.sponsors, r.id = i then
    { st with sponsors :=
        st.sponsors.map (fun r => if r.id = i then ⟨i, nm, lv, cur⟩ else r) }
  else
    { st with sponsors := st.sponsors ++ [⟨i, nm, lv, cur⟩] }

/-- Model of `SponsorStorage.addGratitude` (`database.py`): INSERT INTO gratitude. -/
def addGratitude (st : Store) (gid sid : Nat) (ts : Int) (desc : String) : Store :=
  { st with gratitudes := st.gratitudes ++ [⟨gid, sid, ts, desc⟩] }

/-- Model of `SponsorStorage.addCommit` (`database.py`): INSERT INTO precommit with
`commit_message := userMessage`. -/
def addCommit (st : Store) (gid : Nat) (um wd pmp : String)
    (cs co : Option String) (pc : String) : Store :=
  { st with commits := st.commits ++ [⟨gid, um, wd, pmp, cs, co, pc⟩] }

/-- Model of `SponsorStorage.fullReset` (`database.py`): UPDATE sponsor SET current = level. -/
def fullReset (st : Store) : Store :=
  { st with sponsors := st.sponsors.map (fun r => { r with current := r.level }) }

/-- The row set selected by the WHERE clause of `SponsorStorage.draw`:
sponsors with `current > 0`. -/
def qualifying (st : Store) : List Sponsor :=
  st.sponsors.filter (fun r => 0 < r.current)

/-- Model of `SponsorStorage.draw` (`database.py`): SELECT name, level, current, id FROM
sponsor WHERE current > 0 ORDER BY random() LIMIT {limit}.  The random order is
an oracle `perm`, constrained in the theorems to be a permutation of
`qualifying st`.  sqlite treats a negative LIMIT as no limit. -/
def draw (perm : List Sponsor) (limit : Int) : List Sponsor :=
  if limit < 0 then perm else perm.take limit.toNat

/-- Model of `SponsorStorage.commitForGratitude` (`database.py`): SELECT ... FROM
precommit WHERE gratitude_id = {gratitude_id}, loaded with `maybe` (first row
or absent). -/
def commitForGratitude (st : Store) (gid : Nat) : Option CommitRecord :=
  st.commits.find? (fun c => c.gratitudeID == gid)

/-- Model of `SponsorStorage.sponsorByID` (`database.py`): SELECT name, level, current
FROM sponsor WHERE id = {id}.  The id column is not selected, so the loaded
`Sponsor` dataclass gets a freshly generated uuid for its `id` field. -/
def sponsorByID (db : DB) (i : Nat) : Option (Sponsor × DB) :=
  match db.store.sponsors.find? (fun r => r.id == i) with
  | none => none
  | some r =>
      some (⟨db.nextId, r.name, r.level, r.current⟩,
            { db with nextId := db.nextId + 1 })

/-- Row loading for `SponsorStorage.sponsors` (`database.py`): each row is
loaded as `Sponsor(storage, name, level, current)`, the missing id column
defaulting to a freshly generated uuid per row. -/
def loadRows (base : Nat) : List Sponsor → List Sponsor
  | [] => []
  | r :: rest => ⟨base, r.name, r.level, r.current⟩ :: loadRows (base + 1) rest

/-- Model of `SponsorStorage.sponsors` (`database.py`): SELECT name, level, current FROM
sponsor, loaded with `many(Sponsor)`. -/
def sponsorsQuery (db : DB) : List Sponsor × DB :=
  (loadRows db.nextId db.store.sponsors,
   { db with nextId := db.nextId + db.store.sponsors.length })

/-- The `GratitudeDescriber` protocol with its two implementations
(`StringDescriber` and `CommitDescriber`, `models.py`).  Constructor fields
follow the dataclass field order of `CommitDescriber`. -/
inductive Describer where
  | string (s : String)
  | commit (userMessage preMessagePath workingDirectory : String)
      (commitSource commitObject : Option String) (parentCommit : String)
deriving DecidableEq

/-- Model of `descriptionString` of the two describers (`models.py`). -/
def descriptionString : Describer → String
  | .string s => s
  | .commit _ _ wd _ _ _ => "commit from " ++ wd

/-- Model of `describeGratitude` of the two describers (`models.py`): the plain-string
variant writes nothing; `CommitDescriber.describeGratitude` calls
`storage.addCommit(gratitudeID, userMessage, workingDirectory, preMessagePath,
commitSource, commitObject, parentCommit)`.  The timestamp parameter is passed
but unused, as in the source. -/
def describeGratitude (d : Describer) (st : Store) (ts : Int) (gid : Nat) : Store :=
  match d, ts with
  | .string _, _ => st
  | .commit um pmp wd cs co pc, _ => addCommit st gid um wd pmp cs co pc

/-- Model of `Sponsor.thank` (`models.py`): generate a gratitude uuid, insert the
gratitude row, run the describer callback, decrement the in-memory `current`
and save the sponsor. -/
def thank (db : DB) (sp : Sponsor) (ts : Int) (d : Describer) : DB :=
  { store :=
      saveSponsor
        (describeGratitude d
          (addGratitude db.store db.nextId sp.id ts (descriptionString d))
          ts db.nextId)
        sp.id sp.name sp.level (sp.current - 1),
    nextId := db.nextId + 1 }

/-- The `async for sponsor in acc.draw(howMany)` loop body of `patrons` /
`contributors`: thank each drawn sponsor in order. -/
def thankAll (db : DB) (drawn : List Sponsor) (ts : Int) (d : Describer) : DB :=
  match drawn with
  | [] => db
  | sp :: rest => thankAll (thank db sp ts d) rest ts d

/-- The name-list mutation `names[-1] = "and " + names[-1]` (`models.py`
`patrons`): prefix `"and "` to the last element. -/
def andLast : List String → List String
  | [] => []
  | [x] => ["and " ++ x]
  | x :: rest => x :: andLast rest

/-- Python `sep.join(parts)`. -/
def joinSep (sep : String) : List String → String
  | [] => ""
  | [x] => x
  | x :: rest => x ++ sep ++ joinSep sep rest

/-- The name-formatting step of `patrons` / `contributors`:
`if len(names) > 1: names[-1] = "and " + names[-1]` followed by
`(", " if len(names) > 2 else " ").join(names)`. -/
def formatNames (names : List String) : String :=
  let names2 := if 1 < names.length then andLast names else names
  joinSep (if 2 < names2.length then ", " else " ") names2

/-- One iteration of the `for repeat in range(2)` loop of `patrons` /
`contributors` (`models.py` / `cli.py`): draw, thank every drawn sponsor
collecting names, and either return the formatted names or issue a full reset.
The collected `names` list equals the drawn sponsors' names since `thank`
never changes `name`. -/
def attempt (db : DB) (howMany : Int) (perm : List Sponsor) (ts : Int)
    (d : Describer) : Option String × DB :=
  let drawn := draw perm howMany
  let names := drawn.map (fun sp => sp.name)
  let db1 := thankAll db drawn ts d
  if names.isEmpty then
    (none, { db1 with store := fullReset db1.store })
  else
    (some (formatNames names), db1)

/-- Model of `patrons` (`models.py`), instrumented: the `for repeat in range(2)` loop
unrolled into its at most two iterations, returning the result, the final
database, the number of draw statements executed and the number of fullReset
statements executed.  Each attempt takes its own random-order oracle and
timestamp, as each loop iteration opens a fresh transaction and calls
`time()` anew. -/
def patronsFull (db : DB) (howMany : Int) (perm1 perm2 : List Sponsor)
    (ts1 ts2 : Int) (d : Describer) : String × DB × Nat × Nat :=
  match attempt db howMany perm1 ts1 d with
  | (some r, db1) => (r, db1, 1, 0)
  | (none, db1) =>
    match attempt db1 howMany perm2 ts2 d with
    | (some r, db2) => (r, db2, 2, 1)
    | (none, db2) => ("just me", db2, 2, 2)

/-- Model of `patrons` (`models.py`): result and final database. -/
def patrons (db : DB) (howMany : Int) (perm1 perm2 : List Sponsor)
    (ts1 ts2 : Int) (d : Describer) : String × DB :=
  let r := patronsFull db howMany perm1 perm2 ts1 ts2 d
  (r.1, r.2.1)

/-- Model of `contributors` (`cli.py`), instrumented like `patronsFull`.  This older
revision of the crediting transaction is identical to `patrons` except that
after two unsuccessful iterations it executes
`assert False, "this should be unreachable"` instead of returning the
`"just me"` sentinel; the raised AssertionError is modelled as `Except.error`.
Both loop iterations, including their fullReset statements, have committed by
the time the assertion runs.  (Its `precommit` row also lacks the
`parent_commit` column; no claim settled against `contributors` writes commit
rows, so the shared `attempt` is reused.) -/
def contributorsFull (db : DB) (howMany : Int) (perm1 perm2 : List Sponsor)
    (ts1 ts2 : Int) (d : Describer) : Except String String × DB × Nat × Nat :=
  match attempt db howMany perm1 ts1 d with
  | (some r, db1) => (.ok r, db1, 1, 0)
  | (none, db1) =>
    match attempt db1 howMany perm2 ts2 d with
    | (some r, db2) => (.ok r, db2, 2, 1)
    | (none, db2) => (.error "this should be unreachable", db2, 2, 2)

/-- The `add` CLI command (`cli.py`): `Sponsor(SponsorAccessor(t), name,
level).save()` - a fresh uuid id, `current` defaulting to `level` in
`__post_init__`, then an upsert. -/
def addSponsor (db : DB) (nm : String) (lv : Int) : DB :=
  { store := saveSponsor db.store db.nextId nm lv lv, nextId := db.nextId + 1 }

/-- The specified sponsor invariant: `0 <= current <= level` for every row. -/
def invariant (st : Store) : Prop :=
  ∀ r ∈ st.sponsors, 0 ≤ r.current ∧ r.current ≤ r.level

instance invariantDecidable (st : Store) : Decidable (invariant st) :=
  inferInstanceAs (Decidable (∀ r ∈ st.sponsors, 0 ≤ r.current ∧ r.current ≤ r.level))

/-- The per-row effect of one crediting pass on the sponsor table: the rows
whose id was drawn have `current` decremented by 1, the rest are untouched. -/
def decrementIfDrawn (drawn : List Sponsor) (r : Sponsor) : Sponsor :=
  if r.id ∈ drawn.map (fun sp => sp.id) then { r with current := r.current - 1 } else r

/-- The gratitude rows written by thanking `drawn` in order, with fresh event
ids counting up from `base`. -/
def mkEvents (ts : Int) (desc : String) : Nat → List Sponsor → List Gratitude
  | _, [] => []
  | base, sp :: rest => ⟨base, sp.id, ts, desc⟩ :: mkEvents ts desc (base + 1) rest

/-- The precommit rows written by the commit describer for `k` consecutive
event ids counting up from `base`. -/
def mkCommitRows (um wd pmp : String) (cs co : Option String) (pc : String) :
    Nat → Nat → List CommitRecord
  | _, 0 => []
  | base, k + 1 =>
      ⟨base, um, wd, pmp, cs, co, pc⟩ :: mkCommitRows um wd pmp cs co pc (base + 1) k

/-- The precommit rows a describer writes for `k` consecutive event ids:
none for the plain-string describer, one per event for the commit describer. -/
def mkAttachments (d : Describer) (base k : Nat) : List CommitRecord :=
  match d with
  | .string _ => []
  | .commit um pmp wd cs co pc => mkCommitRows um wd pmp cs co pc base k

/-- The draw that feeds the thanking loop: the first draw if it is nonempty,
otherwise the retry draw taken after the full reset. -/
def feedDraw (n : Int) (perm1 perm2 : List Sponsor) : List Sponsor :=
  if draw perm1 n = [] then draw perm2 n else draw perm1 n

/-- The store state observed by the feeding draw: the initial state, or the
reset state when the first draw came back empty. -/
def feedState (st : Store) (n : Int) (perm1 : List Sponsor) : Store :=
  if draw perm1 n = [] then fullReset st else st

/-- The timestamp of the feeding attempt. -/
def feedTs (n : Int) (perm1 : List Sponsor) (ts1 ts2 : Int) : Int :=
  if draw perm1 n = [] then ts2 else ts1

/-- Postcondition of one completed crediting transaction, phrased relative to
the state `mid` observed by the draw `fed` that fed the thanking loop: one new
gratitude row per fed sponsor, each fed sponsor's row decremented by exactly 1,
every other row unchanged. -/
def creditPost (mid : Store) (fed : List Sponsor) (stf : Store) : Prop :=
  stf.gratitudes.length = mid.gratitudes.length + fed.length ∧
  stf.sponsors = mid.sponsors.map (decrementIfDrawn fed) ∧
  (∀ sp ∈ fed, { sp with current := sp.current - 1 } ∈ stf.sponsors) ∧
  (∀ r ∈ mid.sponsors, r.id ∉ fed.map (fun s => s.id) → r ∈ stf.sponsors)

/-- A two-sponsor database used to instantiate the hypothesised theorems. -/
def dbW : DB := ⟨⟨[⟨0, "A", 2, 2⟩, ⟨1, "B", 3, 1⟩], [], []⟩, 2⟩

/-- A one-sponsor store with one remaining credit, used for the draw claims. -/
def c4store : Store := ⟨[⟨0, "A", 1, 1⟩], [], []⟩

/-- The empty database. -/
def dbE : DB := ⟨⟨[], [], []⟩, 0⟩

/-- A two-sponsor database whose pool is exhausted (every `current = 0`). -/
def dbZ : DB := ⟨⟨[⟨0, "A", 2, 0⟩, ⟨1, "B", 1, 0⟩], [], []⟩, 2⟩

/-- A one-sponsor database whose sponsor has level 0, so that no draw can ever
succeed. -/
def dbL : DB := ⟨⟨[⟨0, "Z", 0, 0⟩], [], []⟩, 1⟩

/-- Unfolding `andLast` on a list with an explicit last element. -/
theorem andLast_append (xs : List String) (y : String) :
    andLast (xs ++ [y]) = xs ++ ["and " ++ y] := by
  induction xs with
  | nil => rfl
  | cons x xs ih =>
    cases xs with
    | nil => rfl
    | cons a as =>
      show x :: andLast (a :: (as ++ [y])) = x :: a :: (as ++ ["and " ++ y])
      simp only [List.cons_append] at ih
      rw [ih]

/-- C6: the name-formatting step maps ["A"] to "A", ["A","B"] to "A and B" and
["A","B","C"] to "A, B, and C"; in general one name is returned unmodified,
two are joined by " and " obtained by prefixing "and " to the last, and three
or more are joined by ", " with "and " prefixed to the last. -/
theorem c6_name_formatting :
    formatNames ["A"] = "A" ∧
    formatNames ["A", "B"] = "A and B" ∧
    formatNames ["A", "B", "C"] = "A, B, and C" ∧
    (∀ a : String, formatNames [a] = a) ∧
    (∀ a b : String, formatNames [a, b] = a ++ " and " ++ b) ∧
    (∀ (xs : List String) (y : String), 2 ≤ xs.length →
      formatNames (xs ++ [y]) = joinSep ", " (xs ++ ["and " ++ y])) := by
  refine ⟨by decide, by decide, by decide, ?_, ?_, ?_⟩
  · intro a
    simp [formatNames, joinSep]
  · intro a b
    show (a ++ " " ++ ("and " ++ b)) = a ++ " and " ++ b
    have h : (" " : String) ++ "and " = " and " := by decide
    rw [String.append_assoc, ← String.append_assoc " " "and " b, h,
      ← String.append_assoc]
  · intro xs y hxs
    have hlen : 1 < (xs ++ [y]).length := by
      simp only [List.length_append, List.length_cons, List.length_nil]
      omega
    have hlen3 : 2 < (xs ++ ["and " ++ y]).length := by
      simp only [List.length_append, List.length_cons, List.length_nil]
      omega
    simp only [formatNames, if_pos hlen, andLast_append]
    rw [if_pos hlen3]

/-- C6 witness: the formatting evaluated on a concrete four-name list through
the general clause of the theorem. -/
theorem c6_name_formatting_witness :
    2 ≤ (["P", "Q", "R"] : List String).length ∧
    formatNames (["P", "Q", "R"] ++ ["S"]) = joinSep ", " (["P", "Q", "R"] ++ ["and " ++ "S"]) :=
  ⟨by decide, c6_name_formatting.2.2.2.2.2 ["P", "Q", "R"] "S" (by decide)⟩

/-- Membership in the draw's WHERE-selected row set. -/
theorem qualifying_mem {st : Store} {sp : Sponsor} (h : sp ∈ qualifying st) :
    sp ∈ st.sponsors ∧ 0 < sp.current := by
  have h' := List.mem_filter.mp h
  exact ⟨h'.1, by simpa using h'.2⟩

/-- Everything the draw returns comes from the qualifying row set. -/
theorem draw_subset_qualifying {perm : List Sponsor} {limit : Int} {st : Store}
    (h : perm.Perm (qualifying st)) :
    ∀ sp ∈ draw perm limit, sp ∈ qualifying st := by
  intro sp hsp
  unfold draw at hsp
  split at hsp
  · exact h.mem_iff.mp hsp
  · exact h.mem_iff.mp (List.Sublist.mem hsp (List.take_sublist _ _))

/-- The qualifying rows keep distinct ids when the table has distinct ids. -/
theorem qualifying_ids_nodup {st : Store}
    (h : (st.sponsors.map (fun r => r.id)).Nodup) :
    ((qualifying st).map (fun r => r.id)).Nodup :=
  List.Nodup.sublist (List.Sublist.map _ (List.filter_sublist _)) h

/-- The drawn rows have distinct ids when the table has distinct ids. -/
theorem draw_ids_nodup {perm : List Sponsor} {limit : Int} {st : Store}
    (hnodup : (st.sponsors.map (fun r => r.id)).Nodup)
    (h : perm.Perm (qualifying st)) :
    ((draw perm limit).map (fun r => r.id)).Nodup := by
  have hp : (perm.map (fun r => r.id)).Nodup :=
    (List.Perm.map (fun r => r.id) h).nodup_iff.mpr (qualifying_ids_nodup hnodup)
  unfold draw
  split
  · exact hp
  · exact List.Nodup.sublist (List.Sublist.map _ (List.take_sublist _ _)) hp

/-- A draw from an empty oracle is empty. -/
theorem draw_nil (limit : Int) : draw [] limit = [] := by
  unfold draw
  split <;> simp

/-- A draw with LIMIT 0 is empty. -/
theorem draw_zero (perm : List Sponsor) : draw perm 0 = [] := by
  unfold draw
  split
  · omega
  · simp

theorem fullReset_gratitudes (st : Store) : (fullReset st).gratitudes = st.gratitudes := rfl

theorem fullReset_commits (st : Store) : (fullReset st).commits = st.commits := rfl

/-- The full reset keeps every row's id. -/
theorem fullReset_ids (st : Store) :
    (fullReset st).sponsors.map (fun r => r.id) = st.sponsors.map (fun r => r.id) := by
  simp only [fullReset, List.map_map]
  rfl

/-- Resetting an already reset pool changes nothing. -/
theorem fullReset_idem (st : Store) : fullReset (fullReset st) = fullReset st := by
  cases st with
  | mk sps gs cs =>
    simp only [fullReset, List.map_map]
    rfl

/-- Resetting an empty sponsor table changes nothing at all. -/
theorem fullReset_of_nil {st : Store} (h : st.sponsors = []) : fullReset st = st := by
  cases st with
  | mk sps gs cs =>
    simp only at h
    subst h
    rfl

theorem decrementIfDrawn_id (drawn : List Sponsor) (r : Sponsor) :
    (decrementIfDrawn drawn r).id = r.id := by
  unfold decrementIfDrawn
  split <;> rfl

theorem decrementIfDrawn_nil (r : Sponsor) : decrementIfDrawn [] r = r := by
  simp [decrementIfDrawn]

theorem map_decrementIfDrawn_nil (l : List Sponsor) :
    l.map (decrementIfDrawn []) = l := by
  rw [List.map_congr_left (fun a _ => decrementIfDrawn_nil a)]
  exact List.map_id l

/-- The crediting pass keeps every row's id. -/
theorem map_ids_decrement (drawn : List Sponsor) (l : List Sponsor) :
    (l.map (decrementIfDrawn drawn)).map (fun r => r.id) = l.map (fun r => r.id) := by
  rw [List.map_map]
  exact List.map_congr_left (fun a _ => decrementIfDrawn_id drawn a)

/-- Peeling one drawn sponsor off the per-row update, given that its id does
not recur among the remaining drawn ids. -/
theorem decrementIfDrawn_cons (sp : Sponsor) (rest : List Sponsor)
    (hsp : sp.id ∉ rest.map (fun s => s.id)) (r : Sponsor) :
    decrementIfDrawn rest (decrementIfDrawn [sp] r) = decrementIfDrawn (sp :: rest) r := by
  by_cases hid : r.id = sp.id
  · have h1 : decrementIfDrawn [sp] r = { r with current := r.current - 1 } := by
      simp [decrementIfDrawn, hid]
    rw [h1]
    have h2 : decrementIfDrawn rest { r with current := r.current - 1 }
        = { r with current := r.current - 1 } := by
      unfold decrementIfDrawn
      rw [if_neg]
      show ¬ r.id ∈ rest.map (fun s => s.id)
      rw [hid]
      exact hsp
    rw [h2]
    simp [decrementIfDrawn, hid]
  · have h1 : decrementIfDrawn [sp] r = r := by simp [decrementIfDrawn, hid]
    rw [h1]
    by_cases hr : r.id ∈ rest.map (fun s => s.id)
    · simp [decrementIfDrawn, hr, hid]
    · simp [decrementIfDrawn, hr, hid]

theorem mkEvents_length (ts : Int) (desc : String) (base : Nat) (l : List Sponsor) :
    (mkEvents ts desc base l).length = l.length := by
  induction l generalizing base with
  | nil => rfl
  | cons sp rest ih => simp [mkEvents, ih]

theorem mkAttachments_zero (d : Describer) (base : Nat) : mkAttachments d base 0 = [] := by
  cases d <;> rfl

theorem mkAttachments_succ (d : Describer) (base k : Nat) :
    mkAttachments d base 1 ++ mkAttachments d (base + 1) k = mkAttachments d base (k + 1) := by
  cases d <;> rfl

theorem saveSponsor_gratitudes (st : Store) (i : Nat) (nm : String) (lv cur : Int) :
    (saveSponsor st i nm lv cur).gratitudes = st.gratitudes := by
  unfold saveSponsor
  split <;> rfl

theorem saveSponsor_commits (st : Store) (i : Nat) (nm : String) (lv cur : Int) :
    (saveSponsor st i nm lv cur).commits = st.commits := by
  unfold saveSponsor
  split <;> rfl

/-- The upsert takes its UPDATE branch when the id is already present. -/
theorem saveSponsor_update {st : Store} {i : Nat} (hex : ∃ r ∈ st.sponsors, r.id = i)
    (nm : String) (lv cur : Int) :
    (saveSponsor st i nm lv cur).sponsors
      = st.sponsors.map (fun r => if r.id = i then ⟨i, nm, lv, cur⟩ else r) := by
  unfold saveSponsor
  rw [if_pos hex]

/-- The upsert takes its INSERT branch when the id is absent. -/
theorem saveSponsor_insert {st : Store} {i : Nat} (hab : ¬ ∃ r ∈ st.sponsors, r.id = i)
    (nm : String) (lv cur : Int) :
    (saveSponsor st i nm lv cur).sponsors = st.sponsors ++ [⟨i, nm, lv, cur⟩] := by
  unfold saveSponsor
  rw [if_neg hab]

theorem describeGratitude_sponsors (d : Describer) (st : Store) (ts : Int) (gid : Nat) :
    (describeGratitude d st ts gid).sponsors = st.sponsors := by
  cases d <;> rfl

theorem describeGratitude_gratitudes (d : Describer) (st : Store) (ts : Int) (gid : Nat) :
    (describeGratitude d st ts gid).gratitudes = st.gratitudes := by
  cases d <;> rfl

theorem describeGratitude_commits (d : Describer) (st : Store) (ts : Int) (gid : Nat) :
    (describeGratitude d st ts gid).commits = st.commits ++ mkAttachments d gid 1 := by
  cases d <;> simp [describeGratitude, addCommit, mkAttachments, mkCommitRows]

/-- Effect of `Sponsor.thank` on the database, for a sponsor that is a row of
the table with no duplicate ids: one gratitude row appended, the describer's
attachments appended, the sponsor's row decremented, the id supply advanced. -/
theorem thank_store (db : DB) (sp : Sponsor) (ts : Int) (d : Describer)
    (hmem : sp ∈ db.store.sponsors)
    (hnodup : (db.store.sponsors.map (fun r => r.id)).Nodup) :
    (thank db sp ts d).store.sponsors = db.store.sponsors.map (decrementIfDrawn [sp]) ∧
    (thank db sp ts d).store.gratitudes
      = db.store.gratitudes ++ [⟨db.nextId, sp.id, ts, descriptionString d⟩] ∧
    (thank db sp ts d).store.commits = db.store.commits ++ mkAttachments d db.nextId 1 ∧
    (thank db sp ts d).nextId = db.nextId + 1 := by
  have hsp2 : (describeGratitude d
      (addGratitude db.store db.nextId sp.id ts (descriptionString d))
      ts db.nextId).sponsors = db.store.sponsors := by
    rw [describeGratitude_sponsors]
    rfl
  refine ⟨?_, ?_, ?_, rfl⟩
  · show (saveSponsor _ sp.id sp.name sp.level (sp.current - 1)).sponsors = _
    rw [saveSponsor_update (by rw [hsp2]; exact ⟨sp, hmem, rfl⟩), hsp2]
    refine List.map_congr_left ?_
    intro r hr
    by_cases hid : r.id = sp.id
    · have hreq : r = sp := List.inj_on_of_nodup_map hnodup hr hmem hid
      subst hreq
      simp [decrementIfDrawn]
    · simp [decrementIfDrawn, hid]
  · show (saveSponsor _ sp.id sp.name sp.level (sp.current - 1)).gratitudes = _
    rw [saveSponsor_gratitudes, describeGratitude_gratitudes]
    rfl
  · show (saveSponsor _ sp.id sp.name sp.level (sp.current - 1)).commits = _
    rw [saveSponsor_commits, describeGratitude_commits]
    rfl

/-- Effect of the thanking loop on the database: gratitude rows for the drawn
sponsors in order with consecutive fresh ids, the describer's attachments, and
each drawn row decremented by 1 with every other row untouched. -/
theorem thankAll_spec (drawn : List Sponsor) (db : DB) (ts : Int) (d : Describer)
    (hmem : ∀ sp ∈ drawn, sp ∈ db.store.sponsors)
    (hnodupS : (db.store.sponsors.map (fun r => r.id)).Nodup)
    (hnodupD : (drawn.map (fun sp => sp.id)).Nodup) :
    (thankAll db drawn ts d).store.sponsors
      = db.store.sponsors.map (decrementIfDrawn drawn) ∧
    (thankAll db drawn ts d).store.gratitudes
      = db.store.gratitudes ++ mkEvents ts (descriptionString d) db.nextId drawn ∧
    (thankAll db drawn ts d).store.commits
      = db.store.commits ++ mkAttachments d db.nextId drawn.length ∧
    (thankAll db drawn ts d).nextId = db.nextId + drawn.length := by
  induction drawn generalizing db with
  | nil =>
    refine ⟨?_, by simp [thankAll, mkEvents], by simp [thankAll, mkAttachments_zero], by simp [thankAll]⟩
    show db.store.sponsors = _
    rw [map_decrementIfDrawn_nil]
  | cons sp rest ih =>
    have hspmem : sp ∈ db.store.sponsors := hmem sp (List.mem_cons_self sp rest)
    have hnodupD' := hnodupD
    simp only [List.map_cons, List.nodup_cons] at hnodupD'
    have hrestids : sp.id ∉ rest.map (fun s => s.id) := hnodupD'.1
    obtain ⟨hs1, hg1, hc1, hn1⟩ := thank_store db sp ts d hspmem hnodupS
    have hmem' : ∀ q ∈ rest, q ∈ (thank db sp ts d).store.sponsors := by
      intro q hq
      rw [hs1]
      have hqid : decrementIfDrawn [sp] q = q := by
        have : q.id ≠ sp.id := by
          intro hqe
          exact hrestids (hqe ▸ List.mem_map_of_mem (fun s => s.id) hq)
        simp [decrementIfDrawn, this]
      rw [← hqid]
      exact List.mem_map_of_mem (decrementIfDrawn [sp]) (hmem q (List.mem_cons_of_mem sp hq))
    have hnodupS' : ((thank db sp ts d).store.sponsors.map (fun r => r.id)).Nodup := by
      rw [hs1, map_ids_decrement]
      exact hnodupS
    obtain ⟨hs2, hg2, hc2, hn2⟩ := ih (thank db sp ts d) hmem' hnodupS' hnodupD'.2
    refine ⟨?_, ?_, ?_, ?_⟩
    · show (thankAll (thank db sp ts d) rest ts d).store.sponsors = _
      rw [hs2, hs1, List.map_map]
      exact (List.map_congr_left (fun r _ => decrementIfDrawn_cons sp rest hrestids r)).symm.symm
    · show (thankAll (thank db sp ts d) rest ts d).store.gratitudes = _
      rw [hg2, hg1, hn1, List.append_assoc]
      rfl
    · show (thankAll (thank db sp ts d) rest ts d).store.commits = _
      rw [hc2, hc1, hn1, List.append_assoc]
      rw [mkAttachments_succ]
      rfl
    · show (thankAll (thank db sp ts d) rest ts d).nextId = _
      rw [hn2, hn1]
      simp only [List.length_cons]
      omega

/-- A loop iteration whose draw comes back empty thanks no one and issues the
full reset. -/
theorem attempt_of_draw_nil {db : DB} {n : Int} {perm : List Sponsor} {ts : Int}
    {d : Describer} (h : draw perm n = []) :
    attempt db n perm ts d = (none, { db with store := fullReset db.store }) := by
  simp [attempt, h, thankAll]

/-- A loop iteration whose draw is nonempty thanks every drawn sponsor and
returns their formatted names. -/
theorem attempt_of_draw_ne_nil {db : DB} {n : Int} {perm : List Sponsor} {ts : Int}
    {d : Describer} (h : draw perm n ≠ []) :
    attempt db n perm ts d
      = (some (formatNames ((draw perm n).map (fun sp => sp.name))),
         thankAll db (draw perm n) ts d) := by
  simp only [attempt]
  rw [if_neg]
  simp [h]

theorem patronsFull_first {db db1 : DB} {n : Int} {perm1 perm2 : List Sponsor}
    {ts1 ts2 : Int} {d : Describer} {r : String}
    (h : attempt db n perm1 ts1 d = (some r, db1)) :
    patronsFull db n perm1 perm2 ts1 ts2 d = (r, db1, 1, 0) := by
  unfold patronsFull
  rw [h]

theorem patronsFull_second {db db1 db2 : DB} {n : Int} {perm1 perm2 : List Sponsor}
    {ts1 ts2 : Int} {d : Describer} {r : String}
    (h1 : attempt db n perm1 ts1 d = (none, db1))
    (h2 : attempt db1 n perm2 ts2 d = (some r, db2)) :
    patronsFull db n perm1 perm2 ts1 ts2 d = (r, db2, 2, 1) := by
  unfold patronsFull
  rw [h1]
  dsimp only
  rw [h2]

theorem patronsFull_neither {db db1 db2 : DB} {n : Int} {perm1 perm2 : List Sponsor}
    {ts1 ts2 : Int} {d : Describer}
    (h1 : attempt db n perm1 ts1 d = (none, db1))
    (h2 : attempt db1 n perm2 ts2 d = (none, db2)) :
    patronsFull db n perm1 perm2 ts1 ts2 d = ("just me", db2, 2, 2) := by
  unfold patronsFull
  rw [h1]
  dsimp only
  rw [h2]

theorem contributorsFull_neither {db db1 db2 : DB} {n : Int} {perm1 perm2 : List Sponsor}
    {ts1 ts2 : Int} {d : Describer}
    (h1 : attempt db n perm1 ts1 d = (none, db1))
    (h2 : attempt db1 n perm2 ts2 d = (none, db2)) :
    contributorsFull db n perm1 perm2 ts1 ts2 d
      = (Except.error "this should be unreachable", db2, 2, 2) := by
  unfold contributorsFull
  rw [h1]
  dsimp only
  rw [h2]

theorem feedState_gratitudes (st : Store) (n : Int) (perm1 : List Sponsor) :
    (feedState st n perm1).gratitudes = st.gratitudes := by
  unfold feedState
  split <;> rfl

theorem feedState_commits (st : Store) (n : Int) (perm1 : List Sponsor) :
    (feedState st n perm1).commits = st.commits := by
  unfold feedState
  split <;> rfl

theorem feedState_ids_nodup {st : Store} (n : Int) (perm1 : List Sponsor)
    (h : (st.sponsors.map (fun r => r.id)).Nodup) :
    ((feedState st n perm1).sponsors.map (fun r => r.id)).Nodup := by
  unfold feedState
  split
  · rw [fullReset_ids]
    exact h
  · exact h

theorem feedDraw_subset {st : Store} {n : Int} {perm1 perm2 : List Sponsor}
    (h1 : perm1.Perm (qualifying st))
    (h2 : perm2.Perm (qualifying (fullReset st))) :
    ∀ sp ∈ feedDraw n perm1 perm2, sp ∈ qualifying (feedState st n perm1) := by
  unfold feedDraw feedState
  split
  · exact draw_subset_qualifying h2
  · exact draw_subset_qualifying h1

theorem feedDraw_ids_nodup {st : Store} {n : Int} {perm1 perm2 : List Sponsor}
    (hnodup : (st.sponsors.map (fun r => r.id)).Nodup)
    (h1 : perm1.Perm (qualifying st))
    (h2 : perm2.Perm (qualifying (fullReset st))) :
    ((feedDraw n perm1 perm2).map (fun sp => sp.id)).Nodup := by
  unfold feedDraw
  split
  · refine draw_ids_nodup ?_ h2
    rw [fullReset_ids]
    exact hnodup
  · exact draw_ids_nodup hnodup h1

/-- Master description of one completed crediting transaction (`patrons`):
relative to the state seen by the draw that fed the thanking loop, the drawn
rows are decremented, one gratitude row per drawn sponsor is appended with
consecutive fresh ids starting at the initial id supply, the describer's
attachments are appended, and the id supply advances by the number of drawn
sponsors. -/
theorem patronsFull_spec (db : DB) (n : Int) (perm1 perm2 : List Sponsor)
    (ts1 ts2 : Int) (d : Describer)
    (hnodup : (db.store.sponsors.map (fun r => r.id)).Nodup)
    (h1 : perm1.Perm (qualifying db.store))
    (h2 : perm2.Perm (qualifying (fullReset db.store))) :
    (patronsFull db n perm1 perm2 ts1 ts2 d).2.1.store.sponsors
      = (feedState db.store n perm1).sponsors.map
          (decrementIfDrawn (feedDraw n perm1 perm2)) ∧
    (patronsFull db n perm1 perm2 ts1 ts2 d).2.1.store.gratitudes
      = db.store.gratitudes
        ++ mkEvents (feedTs n perm1 ts1 ts2) (descriptionString d) db.nextId
             (feedDraw n perm1 perm2) ∧
    (patronsFull db n perm1 perm2 ts1 ts2 d).2.1.store.commits
      = db.store.commits ++ mkAttachments d db.nextId (feedDraw n perm1 perm2).length ∧
    (patronsFull db n perm1 perm2 ts1 ts2 d).2.1.nextId
      = db.nextId + (feedDraw n perm1 perm2).length := by
  by_cases hd1 : draw perm1 n = []
  · have e1 : attempt db n perm1 ts1 d = (none, { db with store := fullReset db.store }) :=
      attempt_of_draw_nil hd1
    simp only [feedDraw, feedState, feedTs, if_pos hd1]
    by_cases hd2 : draw perm2 n = []
    · have e2 : attempt { db with store := fullReset db.store } n perm2 ts2 d
          = (none, { db with store := fullReset (fullReset db.store) }) :=
        attempt_of_draw_nil hd2
      rw [patronsFull_neither e1 e2]
      rw [hd2]
      refine ⟨?_, by simp [fullReset_idem, fullReset_gratitudes, mkEvents], ?_, by simp [fullReset_idem]⟩
      · show (fullReset (fullReset db.store)).sponsors = _
        rw [fullReset_idem, map_decrementIfDrawn_nil]
      · show (fullReset (fullReset db.store)).commits = _
        rw [fullReset_idem, fullReset_commits]
        simp [mkAttachments_zero]
    · have e2 : attempt { db with store := fullReset db.store } n perm2 ts2 d
          = (some (formatNames ((draw perm2 n).map (fun sp => sp.name))),
             thankAll { db with store := fullReset db.store } (draw perm2 n) ts2 d) :=
        attempt_of_draw_ne_nil hd2
      rw [patronsFull_second e1 e2]
      have hmem : ∀ sp ∈ draw perm2 n,
          sp ∈ ({ db with store := fullReset db.store } : DB).store.sponsors := by
        intro sp hsp
        exact (qualifying_mem (draw_subset_qualifying h2 sp hsp)).1
      have hnodupS : ((({ db with store := fullReset db.store } : DB).store.sponsors).map
          (fun r => r.id)).Nodup := by
        show ((fullReset db.store).sponsors.map (fun r => r.id)).Nodup
        rw [fullReset_ids]
        exact hnodup
      obtain ⟨hs, hg, hc, hn⟩ := thankAll_spec (draw perm2 n)
        { db with store := fullReset db.store } ts2 d hmem hnodupS
        (draw_ids_nodup hnodupS h2)
      exact ⟨hs, hg, hc, hn⟩
  · have e1 : attempt db n perm1 ts1 d
        = (some (formatNames ((draw perm1 n).map (fun sp => sp.name))),
           thankAll db (draw perm1 n) ts1 d) :=
      attempt_of_draw_ne_nil hd1
    rw [patronsFull_first e1]
    simp only [feedDraw, feedState, feedTs, if_neg hd1]
    have hmem : ∀ sp ∈ draw perm1 n, sp ∈ db.store.sponsors := by
      intro sp hsp
      exact (qualifying_mem (draw_subset_qualifying h1 sp hsp)).1
    exact thankAll_spec (draw perm1 n) db ts1 d hmem hnodup (draw_ids_nodup hnodup h1)

/-- C2: after one completed crediting transaction the number of newly written
gratitude rows equals the number of sponsors returned by the draw that fed it,
each of those sponsors' `current` has decreased by exactly 1 relative to the
state that draw observed, and every other sponsor row is unchanged. -/
theorem c2_atomicity (db : DB) (n : Int) (perm1 perm2 : List Sponsor)
    (ts1 ts2 : Int) (d : Describer)
    (hpos : 0 < n)
    (hnodup : (db.store.sponsors.map (fun r => r.id)).Nodup)
    (h1 : perm1.Perm (qualifying db.store))
    (h2 : perm2.Perm (qualifying (fullReset db.store))) :
    creditPost (feedState db.store n perm1) (feedDraw n perm1 perm2)
      (patronsFull db n perm1 perm2 ts1 ts2 d).2.1.store := by
  obtain ⟨hs, hg, hc, hn⟩ := patronsFull_spec db n perm1 perm2 ts1 ts2 d hnodup h1 h2
  refine ⟨?_, hs, ?_, ?_⟩
  · rw [hg, feedState_gratitudes]
    simp [mkEvents_length]
  · intro sp hsp
    rw [hs]
    have hmem : sp ∈ (feedState db.store n perm1).sponsors :=
      (qualifying_mem (feedDraw_subset h1 h2 sp hsp)).1
    have hdec : decrementIfDrawn (feedDraw n perm1 perm2) sp
        = { sp with current := sp.current - 1 } := by
      unfold decrementIfDrawn
      rw [if_pos (List.mem_map_of_mem (fun s => s.id) hsp)]
    rw [← hdec]
    exact List.mem_map_of_mem (decrementIfDrawn (feedDraw n perm1 perm2)) hmem
  · intro r hr hid
    rw [hs]
    have hdec : decrementIfDrawn (feedDraw n perm1 perm2) r = r := by
      unfold decrementIfDrawn
      rw [if_neg hid]
    rw [← hdec]
    exact List.mem_map_of_mem (decrementIfDrawn (feedDraw n perm1 perm2)) hr

/-- C2 witness: the atomicity postcondition holds on a concrete two-sponsor
store with a draw of one. -/
theorem c2_atomicity_witness :
    (0 : Int) < 1 ∧
    (dbW.store.sponsors.map (fun r => r.id)).Nodup ∧
    (qualifying dbW.store).Perm (qualifying dbW.store) ∧
    (qualifying (fullReset dbW.store)).Perm (qualifying (fullReset dbW.store)) ∧
    creditPost (feedState dbW.store 1 (qualifying dbW.store))
      (feedDraw 1 (qualifying dbW.store) (qualifying (fullReset dbW.store)))
      (patronsFull dbW 1 (qualifying dbW.store) (qualifying (fullReset dbW.store)) 5 6
        (Describer.string "thanks")).2.1.store :=
  ⟨by decide, by decide, List.Perm.refl _, List.Perm.refl _,
   c2_atomicity dbW 1 (qualifying dbW.store) (qualifying (fullReset dbW.store)) 5 6
     (Describer.string "thanks") (by decide) (by decide)
     (List.Perm.refl _) (List.Perm.refl _)⟩

/-- C4 counterexample: with N = -1 (sqlite: no limit) the draw on a one-sponsor
store returns one row, so its length is not at most N; the claim fails for
negative N. -/
theorem c4_counterexample :
    (qualifying c4store).Perm (qualifying c4store) ∧
    ¬ (((draw (qualifying c4store) (-1)).length : Int) ≤ -1) :=
  ⟨List.Perm.refl _, by decide⟩

/-- C4 amended: the draw never returns a sponsor with `current <= 0` and never
returns duplicates, for any N; and for every N >= 0 it returns at most N
sponsors (a negative N means no limit under sqlite semantics). -/
theorem c4_amended (st : Store) (limit : Int) (perm : List Sponsor)
    (hnodup : (st.sponsors.map (fun r => r.id)).Nodup)
    (hperm : perm.Perm (qualifying st)) :
    (∀ sp ∈ draw perm limit, 0 < sp.current) ∧
    (draw perm limit).Nodup ∧
    (0 ≤ limit → ((draw perm limit).length : Int) ≤ limit) := by
  refine ⟨?_, ?_, ?_⟩
  · intro sp hsp
    exact (qualifying_mem (draw_subset_qualifying hperm sp hsp)).2
  · exact List.Nodup.of_map _ (draw_ids_nodup hnodup hperm)
  · intro hl
    unfold draw
    rw [if_neg (by omega)]
    have hle : (perm.take limit.toNat).length ≤ limit.toNat := by
      rw [List.length_take]
      exact min_le_left _ _
    calc ((perm.take limit.toNat).length : Int)
        ≤ (limit.toNat : Int) := by exact_mod_cast hle
      _ = limit := Int.toNat_of_nonneg hl

/-- C4 witness: the amended draw correctness evaluated at N = 1 on the
one-sponsor store. -/
theorem c4_amended_witness :
    (c4store.sponsors.map (fun r => r.id)).Nodup ∧
    (qualifying c4store).Perm (qualifying c4store) ∧
    ((∀ sp ∈ draw (qualifying c4store) 1, 0 < sp.current) ∧
     (draw (qualifying c4store) 1).Nodup ∧
     (0 ≤ (1 : Int) → ((draw (qualifying c4store) 1).length : Int) ≤ 1)) :=
  ⟨by decide, List.Perm.refl _,
   c4_amended c4store 1 (qualifying c4store) (by decide) (List.Perm.refl _)⟩

/-- C10: `howMany = 0` is not rejected; the draw with LIMIT 0 is empty, so the
call thanks nobody, issues the full reset (every `current := level`) and falls
through to the exhausted-attempts sentinel. -/
theorem c10_zero_limit (db : DB) (d : Describer) (perm1 perm2 : List Sponsor)
    (ts1 ts2 : Int) (hne : db.store.sponsors ≠ []) :
    draw perm1 0 = [] ∧
    patronsFull db 0 perm1 perm2 ts1 ts2 d
      = ("just me", { db with store := fullReset db.store }, 2, 2) := by
  refine ⟨draw_zero perm1, ?_⟩
  have e1 : attempt db 0 perm1 ts1 d = (none, { db with store := fullReset db.store }) :=
    attempt_of_draw_nil (draw_zero perm1)
  have e2 : attempt { db with store := fullReset db.store } 0 perm2 ts2 d
      = (none, { db with store := fullReset (fullReset db.store) }) :=
    attempt_of_draw_nil (draw_zero perm2)
  rw [patronsFull_neither e1 e2, fullReset_idem]

/-- C10 witness: the zero-count call evaluated on the concrete two-sponsor
store. -/
theorem c10_zero_limit_witness :
    dbW.store.sponsors ≠ [] ∧
    (draw [] 0 = [] ∧
     patronsFull dbW 0 [] [] 0 0 (Describer.string "s")
       = ("just me", { dbW with store := fullReset dbW.store }, 2, 2)) :=
  ⟨by decide, c10_zero_limit dbW (Describer.string "s") [] [] 0 0 (by decide)⟩

/-- C1: on a store with zero sponsors, `patrons` (models.py) returns the
"just me" sentinel with the database unchanged (no gratitude rows, no sponsor
rows added or modified), while `contributors` (cli.py), the older revision,
instead raises `AssertionError("this should be unreachable")` after its two
empty draws - both loop iterations having committed without writes. -/
theorem c1_empty_store (db : DB) (n : Int) (perm1 perm2 : List Sponsor)
    (ts1 ts2 : Int) (d : Describer)
    (hempty : db.store.sponsors = [])
    (hpos : 0 < n)
    (h1 : perm1.Perm (qualifying db.store))
    (h2 : perm2.Perm (qualifying (fullReset db.store))) :
    patronsFull db n perm1 perm2 ts1 ts2 d = ("just me", db, 2, 2) ∧
    contributorsFull db n perm1 perm2 ts1 ts2 d
      = (Except.error "this should be unreachable", db, 2, 2) := by
  have hq : qualifying db.store = [] := by
    unfold qualifying
    rw [hempty]
    rfl
  have hfr : fullReset db.store = db.store := fullReset_of_nil hempty
  have hq2 : qualifying (fullReset db.store) = [] := by rw [hfr, hq]
  have hp1 : perm1 = [] := List.Perm.eq_nil (hq ▸ h1)
  have hp2 : perm2 = [] := List.Perm.eq_nil (hq2 ▸ h2)
  have hd1 : draw perm1 n = [] := by
    rw [hp1]
    exact draw_nil n
  have hd2 : draw perm2 n = [] := by
    rw [hp2]
    exact draw_nil n
  have e1 : attempt db n perm1 ts1 d = (none, db) := by
    have e := @attempt_of_draw_nil db n perm1 ts1 d hd1
    rw [e, hfr]
  have e2 : attempt db n perm2 ts2 d = (none, db) := by
    have e := @attempt_of_draw_nil db n perm2 ts2 d hd2
    rw [e, hfr]
  exact ⟨patronsFull_neither e1 e2, contributorsFull_neither e1 e2⟩

/-- C1 witness: both revisions evaluated on the empty store. -/
theorem c1_empty_store_witness :
    dbE.store.sponsors = [] ∧ (0 : Int) < 3 ∧
    (patronsFull dbE 3 [] [] 0 0 (Describer.string "s") = ("just me", dbE, 2, 2) ∧
     contributorsFull dbE 3 [] [] 0 0 (Describer.string "s")
       = (Except.error "this should be unreachable", dbE, 2, 2)) :=
  ⟨rfl, by decide,
   c1_empty_store dbE 3 [] [] 0 0 (Describer.string "s") rfl (by decide)
     (by decide) (by decide)⟩

/-- Resetting then decrementing a row, expressed per row. -/
theorem decrementIfDrawn_reset (drawn : List Sponsor) (r : Sponsor) :
    decrementIfDrawn drawn { r with current := r.level }
      = if r.id ∈ drawn.map (fun s => s.id)
        then { r with current := r.level - 1 } else { r with current := r.level } := by
  unfold decrementIfDrawn
  dsimp only

/-- C5: starting from a pool where every sponsor has `current = 0`, one
crediting call resets every sponsor's `current` to its `level` and then thanks
a fresh draw of at most N sponsors, leaving drawn sponsors at `level - 1` and
undrawn sponsors at `level`. -/
theorem c5_exhaustion_reset (db : DB) (n : Int) (perm1 perm2 : List Sponsor)
    (ts1 ts2 : Int) (d : Describer)
    (hall : ∀ r ∈ db.store.sponsors, r.current = 0)
    (hne : db.store.sponsors ≠ [])
    (hpos : 0 < n)
    (hnodup : (db.store.sponsors.map (fun r => r.id)).Nodup)
    (h1 : perm1.Perm (qualifying db.store))
    (h2 : perm2.Perm (qualifying (fullReset db.store))) :
    (patronsFull db n perm1 perm2 ts1 ts2 d).2.1.store.sponsors
      = db.store.sponsors.map (fun r =>
          if r.id ∈ (draw perm2 n).map (fun s => s.id)
          then { r with current := r.level - 1 }
          else { r with current := r.level }) ∧
    (draw perm2 n).length ≤ n.toNat := by
  have hq : qualifying db.store = [] := by
    unfold qualifying
    refine List.filter_eq_nil_iff.mpr ?_
    intro a ha
    simp [hall a ha]
  have hp1 : perm1 = [] := List.Perm.eq_nil (hq ▸ h1)
  have hd1 : draw perm1 n = [] := by
    rw [hp1]
    exact draw_nil n
  obtain ⟨hs, hg, hc, hn⟩ := patronsFull_spec db n perm1 perm2 ts1 ts2 d hnodup h1 h2
  constructor
  · rw [hs]
    unfold feedState feedDraw
    rw [if_pos hd1, if_pos hd1]
    unfold fullReset
    rw [List.map_map]
    exact List.map_congr_left (fun r _ => decrementIfDrawn_reset (draw perm2 n) r)
  · unfold draw
    rw [if_neg (by omega)]
    rw [List.length_take]
    exact min_le_left _ _

/-- C5 witness: the exhaustion-reset behaviour evaluated on a concrete
exhausted two-sponsor store with a draw of one. -/
theorem c5_exhaustion_reset_witness :
    (∀ r ∈ dbZ.store.sponsors, r.current = 0) ∧
    dbZ.store.sponsors ≠ [] ∧
    (0 : Int) < 1 ∧
    ((patronsFull dbZ 1 (qualifying dbZ.store) (qualifying (fullReset dbZ.store)) 7 8
        (Describer.string "x")).2.1.store.sponsors
      = dbZ.store.sponsors.map (fun r =>
          if r.id ∈ (draw (qualifying (fullReset dbZ.store)) 1).map (fun s => s.id)
          then { r with current := r.level - 1 }
          else { r with current := r.level }) ∧
     (draw (qualifying (fullReset dbZ.store)) 1).length ≤ (1 : Int).toNat) :=
  ⟨by decide, by decide, by decide,
   c5_exhaustion_reset dbZ 1 (qualifying dbZ.store) (qualifying (fullReset dbZ.store)) 7 8
     (Describer.string "x") (by decide) (by decide) (by decide) (by decide)
     (List.Perm.refl _) (List.Perm.refl _)⟩

/-- C3 counterexample: the claim quantifies over every state-mutating
operation including add-sponsor, but the add path performs no validation, so
adding a sponsor with a negative level to a store satisfying the invariant
yields a store violating it. -/
theorem c3_counterexample :
    invariant (Store.mk [] [] []) ∧
    ¬ invariant (addSponsor (DB.mk (Store.mk [] [] []) 0) "X" (-1)).store := by
  decide

theorem invariant_fullReset {st : Store} (h : invariant st) : invariant (fullReset st) := by
  intro r' hr'
  unfold fullReset at hr'
  dsimp only at hr'
  obtain ⟨r, hr, rfl⟩ := List.mem_map.mp hr'
  obtain ⟨h0, h1⟩ := h r hr
  exact ⟨le_trans h0 h1, le_refl _⟩

theorem invariant_saveSponsor {st : Store} (h : invariant st) (i : Nat) (nm : String)
    {lv cur : Int} (h0 : 0 ≤ cur) (h1 : cur ≤ lv) :
    invariant (saveSponsor st i nm lv cur) := by
  intro r' hr'
  unfold saveSponsor at hr'
  split at hr'
  · dsimp only at hr'
    obtain ⟨r, hr, rfl⟩ := List.mem_map.mp hr'
    by_cases hid : r.id = i
    · simp only [if_pos hid]
      exact ⟨h0, h1⟩
    · simp only [if_neg hid]
      exact h r hr
  · dsimp only at hr'
    rw [List.mem_append] at hr'
    rcases hr' with hr' | hr'
    · exact h r' hr'
    · rw [List.mem_singleton] at hr'
      subst hr'
      exact ⟨h0, h1⟩

theorem invariant_addSponsor {db : DB} (h : invariant db.store) (nm : String)
    {lv : Int} (hlv : 0 ≤ lv) : invariant (addSponsor db nm lv).store :=
  invariant_saveSponsor h db.nextId nm hlv (le_refl lv)

theorem invariant_patronsFull (db : DB) (n : Int) (perm1 perm2 : List Sponsor)
    (ts1 ts2 : Int) (d : Describer)
    (hnodup : (db.store.sponsors.map (fun r => r.id)).Nodup)
    (h1 : perm1.Perm (qualifying db.store))
    (h2 : perm2.Perm (qualifying (fullReset db.store)))
    (hinv : invariant db.store) :
    invariant (patronsFull db n perm1 perm2 ts1 ts2 d).2.1.store := by
  obtain ⟨hs, hg, hc, hn⟩ := patronsFull_spec db n perm1 perm2 ts1 ts2 d hnodup h1 h2
  have hmid : invariant (feedState db.store n perm1) := by
    unfold feedState
    split
    · exact invariant_fullReset hinv
    · exact hinv
  have hmidnodup := feedState_ids_nodup n perm1 hnodup
  intro r' hr'
  rw [hs] at hr'
  obtain ⟨r, hr, rfl⟩ := List.mem_map.mp hr'
  by_cases hid : r.id ∈ (feedDraw n perm1 perm2).map (fun s => s.id)
  · obtain ⟨sp, hsp, hspid⟩ := List.mem_map.mp hid
    obtain ⟨hspmem, hsppos⟩ := qualifying_mem (feedDraw_subset h1 h2 sp hsp)
    have hrs : sp = r := List.inj_on_of_nodup_map hmidnodup hspmem hr hspid
    have hdec : decrementIfDrawn (feedDraw n perm1 perm2) r
        = { r with current := r.current - 1 } := by
      unfold decrementIfDrawn
      rw [if_pos hid]
    rw [hdec]
    obtain ⟨hc0, hc1⟩ := hmid r hr
    have hpos : 0 < r.current := hrs ▸ hsppos
    refine ⟨?_, ?_⟩
    · show (0 : Int) ≤ r.current - 1
      omega
    · show r.current - 1 ≤ r.level
      omega
  · have hdec : decrementIfDrawn (feedDraw n perm1 perm2) r = r := by
      unfold decrementIfDrawn
      rw [if_neg hid]
    rw [hdec]
    exact hmid r hr

/-- C3 amended: `0 <= current <= level` is preserved by the full reset, by the
upsert when the saved values satisfy the bounds, by add-sponsor when the new
level is nonnegative (the counterexample shows the unrestricted claim fails
for a negative level), and by the whole crediting transaction. -/
theorem c3_amended :
    (∀ st : Store, invariant st → invariant (fullReset st)) ∧
    (∀ (st : Store) (i : Nat) (nm : String) (lv cur : Int),
      invariant st → 0 ≤ cur → cur ≤ lv → invariant (saveSponsor st i nm lv cur)) ∧
    (∀ (db : DB) (nm : String) (lv : Int),
      invariant db.store → 0 ≤ lv → invariant (addSponsor db nm lv).store) ∧
    (∀ (db : DB) (n : Int) (perm1 perm2 : List Sponsor) (ts1 ts2 : Int) (d : Describer),
      (db.store.sponsors.map (fun r => r.id)).Nodup →
      perm1.Perm (qualifying db.store) →
      perm2.Perm (qualifying (fullReset db.store)) →
      invariant db.store →
      invariant (patronsFull db n perm1 perm2 ts1 ts2 d).2.1.store) :=
  ⟨fun _ h => invariant_fullReset h,
   fun _ i nm _ _ h h0 h1 => invariant_saveSponsor h i nm h0 h1,
   fun _ nm _ h hlv => invariant_addSponsor h nm hlv,
   fun db n perm1 perm2 ts1 ts2 d hnodup h1 h2 hinv =>
     invariant_patronsFull db n perm1 perm2 ts1 ts2 d hnodup h1 h2 hinv⟩

/-- C3 witness: the amended invariant preservation evaluated on the concrete
two-sponsor store, for add-sponsor and for a crediting call. -/
theorem c3_amended_witness :
    invariant dbW.store ∧ (0 : Int) ≤ 2 ∧
    invariant (addSponsor dbW "C" 2).store ∧
    invariant (patronsFull dbW 2 (qualifying dbW.store) (qualifying (fullReset dbW.store))
      0 0 (Describer.string "y")).2.1.store :=
  ⟨by decide, by decide,
   c3_amended.2.2.1 dbW "C" 2 (by decide) (by decide),
   c3_amended.2.2.2 dbW 2 (qualifying dbW.store) (qualifying (fullReset dbW.store)) 0 0
     (Describer.string "y") (by decide) (List.Perm.refl _) (List.Perm.refl _) (by decide)⟩

theorem contributorsFull_first {db db1 : DB} {n : Int} {perm1 perm2 : List Sponsor}
    {ts1 ts2 : Int} {d : Describer} {r : String}
    (h : attempt db n perm1 ts1 d = (some r, db1)) :
    contributorsFull db n perm1 perm2 ts1 ts2 d = (Except.ok r, db1, 1, 0) := by
  unfold contributorsFull
  rw [h]

theorem contributorsFull_second {db db1 db2 : DB} {n : Int} {perm1 perm2 : List Sponsor}
    {ts1 ts2 : Int} {d : Describer} {r : String}
    (h1 : attempt db n perm1 ts1 d = (none, db1))
    (h2 : attempt db1 n perm2 ts2 d = (some r, db2)) :
    contributorsFull db n perm1 perm2 ts1 ts2 d = (Except.ok r, db2, 2, 1) := by
  unfold contributorsFull
  rw [h1]
  dsimp only
  rw [h2]

/-- C7 counterexample: on a store whose only sponsor has level 0, both draws
come back empty and the loop executes the fullReset statement in each of its
two iterations, so the transaction resets twice, not at most once. -/
theorem c7_counterexample :
    ([] : List Sponsor).Perm (qualifying dbL.store) ∧
    ([] : List Sponsor).Perm (qualifying (fullReset dbL.store)) ∧
    (patronsFull dbL 3 [] [] 0 0 (Describer.string "s")).2.2.2 = 2 ∧
    ¬ ((patronsFull dbL 3 [] [] 0 0 (Describer.string "s")).2.2.2 ≤ 1) := by
  decide

/-- C7 amended: one invocation of the crediting transaction performs at most
two draw attempts (so at most one retry) and, the model being a total
function, always terminates; the fullReset statement executes at most twice -
once after each empty draw - never more. -/
theorem c7_amended (db : DB) (n : Int) (perm1 perm2 : List Sponsor)
    (ts1 ts2 : Int) (d : Describer) :
    (patronsFull db n perm1 perm2 ts1 ts2 d).2.2.1 ≤ 2 ∧
    (patronsFull db n perm1 perm2 ts1 ts2 d).2.2.2 ≤ 2 ∧
    (patronsFull db n perm1 perm2 ts1 ts2 d).2.2.2
      ≤ (patronsFull db n perm1 perm2 ts1 ts2 d).2.2.1 ∧
    (contributorsFull db n perm1 perm2 ts1 ts2 d).2.2.1 ≤ 2 ∧
    (contributorsFull db n perm1 perm2 ts1 ts2 d).2.2.2 ≤ 2 := by
  by_cases hd1 : draw perm1 n = []
  · by_cases hd2 : draw perm2 n = []
    · rw [patronsFull_neither (attempt_of_draw_nil hd1) (attempt_of_draw_nil hd2),
        contributorsFull_neither (attempt_of_draw_nil hd1) (attempt_of_draw_nil hd2)]
      simp
    · rw [patronsFull_second (attempt_of_draw_nil hd1) (attempt_of_draw_ne_nil hd2),
        contributorsFull_second (attempt_of_draw_nil hd1) (attempt_of_draw_ne_nil hd2)]
      simp
  · rw [patronsFull_first (attempt_of_draw_ne_nil hd1),
      contributorsFull_first (attempt_of_draw_ne_nil hd1)]
    simp

theorem find_append_of_all_false {α : Type} (p : α → Bool) (l1 l2 : List α)
    (h : ∀ a ∈ l1, p a = false) :
    (l1 ++ l2).find? p = l2.find? p := by
  induction l1 with
  | nil => rfl
  | cons a l ih =>
    rw [List.cons_append, List.find?_cons_of_neg _ (by simp [h a (List.mem_cons_self a l)])]
    exact ih (fun b hb => h b (List.mem_cons_of_mem a hb))

/-- Ids of the gratitude rows written by one thanking pass lie in the
half-open range starting at the initial fresh-id counter. -/
theorem mkEvents_mem_id {ts : Int} {desc : String} (base : Nat) (l : List Sponsor)
    (g : Gratitude) (hg : g ∈ mkEvents ts desc base l) :
    base ≤ g.id ∧ g.id < base + l.length := by
  induction l generalizing base with
  | nil => simp [mkEvents] at hg
  | cons sp rest ih =>
    simp only [mkEvents] at hg
    rcases List.mem_cons.mp hg with hg1 | hg1
    · subst hg1
      simp only [List.length_cons]
      omega
    · obtain ⟨hlo, hhi⟩ := ih (base + 1) hg1
      simp only [List.length_cons]
      omega

/-- Looking up one of the freshly written precommit rows by gratitude id. -/
theorem mkCommitRows_find (um wd pmp : String) (cs co : Option String) (pc : String)
    (base k gid : Nat) (h1 : base ≤ gid) (h2 : gid < base + k) :
    (mkCommitRows um wd pmp cs co pc base k).find? (fun c => c.gratitudeID == gid)
      = some ⟨gid, um, wd, pmp, cs, co, pc⟩ := by
  induction k generalizing base with
  | zero => omega
  | succ k ih =>
    by_cases hg : gid = base
    · subst hg
      show ((⟨gid, um, wd, pmp, cs, co, pc⟩ : CommitRecord)
          :: mkCommitRows um wd pmp cs co pc (gid + 1) k).find? _ = _
      rw [List.find?_cons_of_pos _ (by simp)]
    · show ((⟨base, um, wd, pmp, cs, co, pc⟩ : CommitRecord)
          :: mkCommitRows um wd pmp cs co pc (base + 1) k).find? _ = _
      rw [List.find?_cons_of_neg _ (by simp; omega)]
      exact ih (base + 1) (by omega) (by omega)

/-- C8: with the commit-context describer, every gratitude row produced by one
crediting call has a precommit row retrievable through `commitForGratitude`
whose fields exactly match the metadata the describer captured. -/
theorem c8_commit_linkage (db : DB) (n : Int) (perm1 perm2 : List Sponsor)
    (ts1 ts2 : Int) (um pmp wd : String) (cs co : Option String) (pc : String)
    (hnodup : (db.store.sponsors.map (fun r => r.id)).Nodup)
    (h1 : perm1.Perm (qualifying db.store))
    (h2 : perm2.Perm (qualifying (fullReset db.store)))
    (hc : ∀ c ∈ db.store.commits, c.gratitudeID < db.nextId) :
    ∀ g ∈ (patronsFull db n perm1 perm2 ts1 ts2
        (Describer.commit um pmp wd cs co pc)).2.1.store.gratitudes,
      g ∉ db.store.gratitudes →
      commitForGratitude (patronsFull db n perm1 perm2 ts1 ts2
          (Describer.commit um pmp wd cs co pc)).2.1.store g.id
        = some ⟨g.id, um, wd, pmp, cs, co, pc⟩ := by
  obtain ⟨hs, hg, hcm, hn⟩ := patronsFull_spec db n perm1 perm2 ts1 ts2
    (Describer.commit um pmp wd cs co pc) hnodup h1 h2
  intro g hmem hnew
  rw [hg] at hmem
  rcases List.mem_append.mp hmem with hold | hnewmem
  · exact absurd hold hnew
  · obtain ⟨hlo, hhi⟩ := mkEvents_mem_id db.nextId (feedDraw n perm1 perm2) g hnewmem
    unfold commitForGratitude
    rw [hcm]
    show (db.store.commits ++ mkCommitRows um wd pmp cs co pc db.nextId
      (feedDraw n perm1 perm2).length).find? (fun c => c.gratitudeID == g.id) = _
    have hfalse : ∀ c ∈ db.store.commits, (c.gratitudeID == g.id) = false := by
      intro c hcmem
      have hltc := hc c hcmem
      simp only [beq_eq_false_iff_ne]
      omega
    rw [find_append_of_all_false _ _ _ hfalse]
    exact mkCommitRows_find um wd pmp cs co pc db.nextId _ g.id hlo hhi

/-- C8 witness: on the two-sponsor store a crediting call with the commit
describer produces the event with id 2, whose attachment lookup returns the
captured metadata. -/
theorem c8_commit_linkage_witness :
    (dbW.store.sponsors.map (fun r => r.id)).Nodup ∧
    (∀ c ∈ dbW.store.commits, c.gratitudeID < dbW.nextId) ∧
    ((⟨2, 0, 9, "commit from wd"⟩ : Gratitude)
        ∈ (patronsFull dbW 2 (qualifying dbW.store) (qualifying (fullReset dbW.store)) 9 9
            (Describer.commit "m" "p" "wd" none none "h")).2.1.store.gratitudes) ∧
    commitForGratitude (patronsFull dbW 2 (qualifying dbW.store)
        (qualifying (fullReset dbW.store)) 9 9
        (Describer.commit "m" "p" "wd" none none "h")).2.1.store
        (⟨2, 0, 9, "commit from wd"⟩ : Gratitude).id
      = some ⟨2, "m", "wd", "p", none, none, "h"⟩ :=
  ⟨by decide, by decide, by decide,
   c8_commit_linkage dbW 2 (qualifying dbW.store) (qualifying (fullReset dbW.store)) 9 9
     "m" "p" "wd" none none "h" (by decide) (List.Perm.refl _) (List.Perm.refl _)
     (by decide) ⟨2, 0, 9, "commit from wd"⟩ (by decide) (by decide)⟩

theorem loadRows_id_ge (base : Nat) (l : List Sponsor) :
    ∀ q ∈ loadRows base l, base ≤ q.id := by
  induction l generalizing base with
  | nil =>
    intro q hq
    simp [loadRows] at hq
  | cons r rest ih =>
    intro q hq
    simp only [loadRows] at hq
    rcases List.mem_cons.mp hq with hq1 | hq1
    · subst hq1
      exact le_refl base
    · exact le_trans (Nat.le_succ base) (ih (base + 1) q hq1)

/-- C9: reading sponsors back does not round-trip ids.  Every row returned by
the sponsors listing carries a freshly generated id absent from the table, and
`sponsorByID i` returns the stored name/level/current under a fresh id
different from `i`, so saving that object takes the INSERT branch and appends
a new row instead of updating the original. -/
theorem c9_fresh_id (db : DB) (i : Nat) (r : Sponsor)
    (hmem : r ∈ db.store.sponsors) (hid : r.id = i)
    (hlt : ∀ s ∈ db.store.sponsors, s.id < db.nextId)
    (hnodup : (db.store.sponsors.map (fun s => s.id)).Nodup) :
    (∀ q ∈ (sponsorsQuery db).1, q.id ∉ db.store.sponsors.map (fun s => s.id)) ∧
    (∃ sp : Sponsor,
      sponsorByID db i = some (sp, { db with nextId := db.nextId + 1 }) ∧
      sp.name = r.name ∧ sp.level = r.level ∧ sp.current = r.current ∧
      sp.id ≠ i ∧ sp.id ∉ db.store.sponsors.map (fun s => s.id) ∧
      (saveSponsor db.store sp.id sp.name sp.level sp.current).sponsors
        = db.store.sponsors ++ [sp]) := by
  constructor
  · intro q hq hmm
    obtain ⟨s, hsmem, hsid⟩ := List.mem_map.mp hmm
    have hge : db.nextId ≤ q.id := loadRows_id_ge db.nextId db.store.sponsors q hq
    have hlts := hlt s hsmem
    omega
  · have hfind : db.store.sponsors.find? (fun s => s.id == i) = some r := by
      cases hf : db.store.sponsors.find? (fun s => s.id == i) with
      | none =>
        exfalso
        have hno := List.find?_eq_none.mp hf r hmem
        simp [hid] at hno
      | some r0 =>
        have hp : r0.id = i := by simpa using List.find?_some hf
        have hm := List.mem_of_find?_eq_some hf
        have hr0 : r0 = r := List.inj_on_of_nodup_map hnodup hm hmem (by rw [hp, hid])
        rw [hr0]
    refine ⟨⟨db.nextId, r.name, r.level, r.current⟩, ?_, rfl, rfl, rfl, ?_, ?_, ?_⟩
    · unfold sponsorByID
      rw [hfind]
    · show db.nextId ≠ i
      have hltr := hlt r hmem
      omega
    · show db.nextId ∉ _
      intro hmm
      obtain ⟨s, hsmem, hsid⟩ := List.mem_map.mp hmm
      have hlts := hlt s hsmem
      have hsid2 : s.id = db.nextId := hsid
      omega
    · refine saveSponsor_insert ?_ _ _ _
      rintro ⟨s, hsmem, hsid⟩
      have hlts := hlt s hsmem
      have hsid2 : s.id = db.nextId := hsid
      omega

/-- C9 witness: the fresh-id behaviour evaluated on the two-sponsor store for
the stored sponsor with id 0. -/
theorem c9_fresh_id_witness :
    ((⟨0, "A", 2, 2⟩ : Sponsor) ∈ dbW.store.sponsors) ∧
    (∀ s ∈ dbW.store.sponsors, s.id < dbW.nextId) ∧
    ((∀ q ∈ (sponsorsQuery dbW).1, q.id ∉ dbW.store.sponsors.map (fun s => s.id)) ∧
     (∃ sp : Sponsor,
       sponsorByID dbW 0 = some (sp, { dbW with nextId := dbW.nextId + 1 }) ∧
       sp.name = (⟨0, "A", 2, 2⟩ : Sponsor).name ∧
       sp.level = (⟨0, "A", 2, 2⟩ : Sponsor).level ∧
       sp.current = (⟨0, "A", 2, 2⟩ : Sponsor).current ∧
       sp.id ≠ 0 ∧ sp.id ∉ dbW.store.sponsors.map (fun s => s.id) ∧
       (saveSponsor dbW.store sp.id sp.name sp.level sp.current).sponsors
         = dbW.store.sponsors ++ [sp])) :=
  ⟨by decide, by decide,
   c9_fresh_id dbW 0 ⟨0, "A", 2, 2⟩ (by decide) rfl (by decide) (by decide)⟩
